import Mathlib

/-!
Verification of the Range-to-Chunk Streaming Engine of src/server.py.

The Python code is shallowly embedded:
* bytes values are `List Nat`;
* the upstream `client.stream_media(file_id, offset=start)` call (pyrogram,
  an external collaborator, spec section 6 "Resource Fetcher") is modelled as a
  function `fetch : Int → List (List Nat)` giving the chunk sequence the
  upstream yields when asked to stream from a given offset;
* Python exceptions swallowed by bare `except` blocks are modelled by the
  corresponding default results;
* machine-level concerns do not arise: Python integers are unbounded, so
  `Int` is exact.
-/

/-- Python byte-slice `b[:n]` where `n : Int` may be negative: a negative
stop index counts from the end of the sequence (`b[:n] = b[:len(b)+n]`),
clamped to the empty slice when `len(b)+n < 0`. -/
def pyTake (n : Int) (b : List Nat) : List Nat :=
  if 0 ≤ n then b.take n.toNat else b.take ((b.length : Int) + n).toNat

/-- The loop body of `file_generator` (src/server.py lines 96-108): iterate
over the upstream chunks; if serving the whole chunk would exceed
`total` (= `total_bytes_to_serve`), yield `chunk[:remaining]` and break;
otherwise yield the chunk, add its length to `bytes_served`, and break once
`bytes_served >= total`. -/
def fgLoop (total : Int) : Int → List (List Nat) → List (List Nat)
  | _, [] => []
  | served, chunk :: rest =>
    if total < served + chunk.length then [pyTake (total - served) chunk]
    else if total ≤ served + chunk.length then [chunk]
    else chunk :: fgLoop total (served + chunk.length) rest

/-- `file_generator` (src/server.py lines 90-112): `total_bytes_to_serve =
end - start + 1`, `bytes_served = 0`, then the trim loop over
`client.stream_media(file_id_str, offset=start)` — the one upstream request is
issued at offset exactly `start`. -/
def file_generator (fetch : Int → List (List Nat)) (start endB : Int) : List (List Nat) :=
  fgLoop (endB - start + 1) 0 (fetch start)

/-- Python `str.split(sep)` for a one-character separator: splits at every
occurrence, keeping empty pieces, and returns one piece even for the empty
string. -/
def splitOnChar (sep : Char) : List Char → List (List Char)
  | [] => [[]]
  | c :: rest =>
    match splitOnChar sep rest with
    | [] => [[c]]
    | h :: t => if c = sep then [] :: h :: t else (c :: h) :: t

/-- Value of a digit character. -/
def digitVal (c : Char) : Nat := c.toNat - 48

/-- Decimal value of a digit string. -/
def digitsVal (ds : List Char) : Nat := ds.foldl (fun a c => a * 10 + digitVal c) 0

/-- Python `int(s)` on the argument strings the range parser can produce:
an optional sign followed by decimal digits parses to the signed value;
anything else raises `ValueError`, modelled as `none`.  (The builtin also
accepts surrounding whitespace and digit-group underscores; such strings are
conservatively mapped to `none` here.) -/
def pyInt (s : List Char) : Option Int :=
  match s with
  | [] => none
  | c :: rest =>
    if c = '-' then
      if rest ≠ [] ∧ rest.all Char.isDigit then some (-(digitsVal rest : Int)) else none
    else if c = '+' then
      if rest ≠ [] ∧ rest.all Char.isDigit then some ((digitsVal rest : Int)) else none
    else if (c :: rest).all Char.isDigit then some ((digitsVal (c :: rest) : Int)) else none

/-- The characters of the expected range unit `bytes`. -/
def bytesUnit : List Char := ['b', 'y', 't', 'e', 's']

/-- The `start`/`end` extraction from `parts = r.split("-")`
(src/server.py lines 191-193): `start = int(parts[0]) if parts[0] else 0`,
`end = int(parts[1]) if len(parts) > 1 and parts[1] else file_size - 1`.
A `ValueError` from `int(parts[0])` aborts both assignments (defaults kept);
a `ValueError` from `int(parts[1])` occurs after `start` was assigned, so
`start` keeps the parsed value while `end` keeps the default. -/
def parseBytesRange (parts : List (List Char)) (file_size : Int) : Int × Int :=
  let p0 := parts.headD []
  match (if p0 = [] then some 0 else pyInt p0) with
  | none => (0, file_size - 1)
  | some s =>
    match parts.drop 1 with
    | [] => (s, file_size - 1)
    | p1 :: _ =>
      if p1 = [] then (s, file_size - 1)
      else
        match pyInt p1 with
        | some e => (s, e)
        | none => (s, file_size - 1)

/-- The Range-header resolution of `stream_logic` (src/server.py lines
185-194): defaults `(0, file_size - 1)`; a present, non-empty header is split
on `=`; exactly two pieces with unit `bytes` reach the `-` split; any
exception in the `try` block leaves the defaults in place. -/
def parseRange (header : Option String) (file_size : Int) : Int × Int :=
  match header with
  | none => (0, file_size - 1)
  | some h =>
    if h.data = [] then (0, file_size - 1)
    else
      match splitOnChar '=' h.data with
      | [unitPart, r] =>
        if unitPart = bytesUnit then parseBytesRange (splitOnChar '-' r) file_size
        else (0, file_size - 1)
      | _ => (0, file_size - 1)

/-- An HTTP response as `stream_logic` assembles it: the status code and
header dict passed to `Response`/`StreamingResponse`, and the chunk sequence
its body generator produces. -/
structure HttpResponse where
  status : Nat
  headers : List (String × String)
  body : List (List Nat)
deriving DecidableEq

/-- `stream_logic` (src/server.py lines 183-213).  The range header is
resolved, `start >= file_size` yields the 416 response, otherwise
`end = min(end, file_size - 1)` and a `StreamingResponse` with
`status_code=206` and the six headers is returned.  Its body generator `gen`
enters `StreamManager()` (lines 76-87): when `active_streams_count >=
MAX_CONCURRENT_STREAMS` the `HTTPException(503)` raised by `__aenter__` is
swallowed by the generator's bare `except: pass`, so the body is empty;
otherwise the body is the `file_generator` chunk sequence.  The status and
headers are fixed before the body generator ever runs. -/
def stream_logic (maxStreams active : Nat) (fetch : Int → List (List Nat))
    (rangeHeader : Option String) (size : Int) (disposition : String) : HttpResponse :=
  let se := parseRange rangeHeader size
  let start := se.1
  if size ≤ start then
    { status := 416, headers := [("Content-Range", "bytes */" ++ toString size)], body := [] }
  else
    let endB := min se.2 (size - 1)
    let content_length := endB - start + 1
    { status := 206
      headers := [("Content-Range",
                    "bytes " ++ toString start ++ "-" ++ toString endB ++ "/" ++ toString size),
                  ("Accept-Ranges", "bytes"),
                  ("Content-Length", toString content_length),
                  ("Content-Type", "video/mp4"),
                  ("Content-Disposition", disposition),
                  ("Connection", "keep-alive")]
      body := if maxStreams ≤ active then [] else file_generator fetch start endB }

/-- The fields `generate_secure_link` (src/server.py lines 37-41) embeds in
the returned URL query string: `file_id`, `size`, `token`, `exp`. -/
structure SecureLink where
  file_id : String
  size : Int
  token : String
  exp : Nat
deriving DecidableEq

/-- `generate_secure_link` (src/server.py lines 37-41): `expiry = now +
TOKEN_EXPIRY`; the token is the keyed hash of `f"{file_id}{expiry}"`.
`HMAC-SHA256` (the `hmac`/`hashlib` libraries) is abstracted as a
deterministic keyed function `mac : secret → payload → hex digest`; the
declared `file_size` is carried in the URL but does not enter the payload. -/
def generate_secure_link (mac : String → String → String) (secret : String)
    (tokenExpiry now : Nat) (file_id : String) (file_size : Int) : SecureLink :=
  let expiry := now + tokenExpiry
  { file_id := file_id
    size := file_size
    token := mac secret (file_id ++ toString expiry)
    exp := expiry }

/-- `verify_token` (src/server.py lines 43-47): false when `time.time() >
expiry`; otherwise recompute the keyed hash of `f"{file_id}{expiry}"` and
compare with `hmac.compare_digest` (equality, in constant time). -/
def verify_token (mac : String → String → String) (secret : String) (now : Nat)
    (file_id : String) (token : String) (expiry : Nat) : Bool :=
  if expiry < now then false
  else mac secret (file_id ++ toString expiry) == token

/-- Outcome of the `/stream` route: either the 403 `HTTPException` or the
streaming response. -/
inductive RouteResult where
  | forbidden
  | streamed (r : HttpResponse)
deriving DecidableEq

/-- Whether the route rejected the request with 403. -/
def RouteResult.isForbidden : RouteResult → Bool
  | .forbidden => true
  | .streamed _ => false

/-- `stream_route` (src/server.py lines 215-218): `verify_token(file_id,
token, exp)` gates the request; on success the response is
`stream_logic(request, file_id, size, "inline")`.  The client-presented
`size` query parameter is passed straight to `stream_logic`. -/
def stream_route (mac : String → String → String) (secret : String) (now : Nat)
    (maxStreams active : Nat) (fetch : Int → List (List Nat)) (rangeHeader : Option String)
    (file_id : String) (size : Int) (token : String) (exp : Nat) : RouteResult :=
  if verify_token mac secret now file_id token exp then
    .streamed (stream_logic maxStreams active fetch rangeHeader size "inline")
  else .forbidden

/-- The two operations on the global `active_streams_count`
(src/server.py lines 76-87). -/
inductive AdmOp where
  | acquire
  | release
deriving DecidableEq

/-- One admission operation on the counter.  `acquire` is
`StreamManager.__aenter__`: under the lock, if `active_streams_count >=
MAX_CONCURRENT_STREAMS` it raises `HTTPException(503)` leaving the counter
unchanged, else it increments.  `release` is `StreamManager.__aexit__`:
under the lock, it decrements. -/
def admStep (maxStreams : Nat) (active : Int) : AdmOp → Int
  | .acquire => if (maxStreams : Int) ≤ active then active else active + 1
  | .release => active - 1

/-- The counter after a sequence of admission operations. -/
def admRun (maxStreams : Nat) (active : Int) : List AdmOp → Int
  | [] => active
  | op :: ops => admRun maxStreams (admStep maxStreams active op) ops

/-- Traces the `async with StreamManager()` scoping can produce: `__aexit__`
runs only after a successful `__aenter__` of the same block, so a `release`
occurs only while at least one granted acquisition is open — equivalently,
starting from 0, only while the counter is positive. -/
def validTrace (maxStreams : Nat) (active : Int) : List AdmOp → Bool
  | [] => true
  | AdmOp.acquire :: ops => validTrace maxStreams (admStep maxStreams active .acquire) ops
  | AdmOp.release :: ops => decide (0 < active) && validTrace maxStreams (active - 1) ops

/-- Number of granted (counter-incrementing) acquires in a trace. -/
def grantCount (maxStreams : Nat) (active : Int) : List AdmOp → Nat
  | [] => 0
  | AdmOp.acquire :: ops =>
    (if (maxStreams : Int) ≤ active then 0 else 1)
      + grantCount maxStreams (admStep maxStreams active .acquire) ops
  | AdmOp.release :: ops => grantCount maxStreams (active - 1) ops

/-- Number of releases in a trace. -/
def releaseCount : List AdmOp → Nat
  | [] => 0
  | AdmOp.acquire :: ops => releaseCount ops
  | AdmOp.release :: ops => releaseCount ops + 1

/-- State of the `file_generator` coroutine between two yields: either the
loop has been left (`break`, exception, or list exhausted), or it is about to
process the remaining upstream items with the current `bytes_served`.  An
upstream item is `some chunk` for a delivered chunk and `none` for the point
at which `stream_media` raises. -/
inductive FGState where
  | halted
  | running (served : Int) (upstream : List (Option (List Nat)))
deriving DecidableEq

/-- One pull on the `file_generator` coroutine (src/server.py lines 94-112):
`none` means the generator is finished.  An upstream exception (`none` item)
is caught by the `except` at line 110, which logs and `pass`es, ending the
generator without propagating the error and without touching later upstream
items. -/
def fgStep (total : Int) : FGState → Option (List Nat × FGState)
  | .halted => none
  | .running _ [] => none
  | .running _ (none :: _) => none
  | .running served (some chunk :: rest) =>
    if total < served + chunk.length then some (pyTake (total - served) chunk, .halted)
    else if total ≤ served + chunk.length then some (chunk, .halted)
    else some (chunk, .running (served + chunk.length) rest)

/-- The chunks obtained by pulling the coroutine at most `k` times — `k` is
the number of chunks the client accepts before completing or disconnecting. -/
def fgRun (total : Int) : Nat → FGState → List (List Nat)
  | 0, _ => []
  | k + 1, s =>
    match fgStep total s with
    | none => []
    | some (c, s') => c :: fgRun total k s'

/-- The body generator `gen` of `stream_logic` (src/server.py lines 207-213)
together with its net effect on `active_streams_count`: when the counter has
reached `MAX_CONCURRENT_STREAMS`, `__aenter__` raises before incrementing and
the bare `except: pass` ends the generator (no chunks, counter untouched);
otherwise the counter is incremented, the chunks are streamed, and
`__aexit__` decrements on every exit path of the `async with` block. -/
def genExec (maxStreams active : Nat) (chunks : List (List Nat)) : List (List Nat) × Nat :=
  if maxStreams ≤ active then ([], active)
  else (chunks, active + 1 - 1)

/-- Upstream model answering distinct data at the requested offset 4097 and
at the alignment candidates 0 and 4096. -/
def cexFetchA : Int → List (List Nat) := fun o => if o = 4097 then [[9, 9, 9]] else [[1, 2, 3]]

/-- Like `cexFetchA` but with different data at every offset other than
4097. -/
def cexFetchB : Int → List (List Nat) := fun o => if o = 4097 then [[9, 9, 9]] else [[7]]

/-- Like `cexFetchA` but with different data at offset 4097 only. -/
def cexFetchC : Int → List (List Nat) := fun o => if o = 4097 then [[5]] else [[1, 2, 3]]

/-- An upstream with (at least) 1995904 bytes available from every offset. -/
def wFetch : Int → List (List Nat) := fun _ => [List.replicate 1995904 0]

/-!  Theorems. -/

-- sanity checks of the embedding on concrete inputs
example : file_generator (fun _ => [[1, 2, 3], [4, 5, 6]]) 0 3 = [[1, 2, 3], [4]] := by decide
example : file_generator (fun _ => [[1, 2, 3]]) 500 100 = [[]] := by decide
example : pyTake (-1) [1, 2, 3] = [1, 2] := by decide
example : parseRange (some "bytes=500-100") 1000 = (500, 100) := by decide
example : parseRange (some "bytes=-5") 1000 = (0, 5) := by decide
example : parseRange (some "bytes=500-") 1000 = (500, 999) := by decide
example : parseRange none 1000 = (0, 999) := by decide
example : parseRange (some "bytes=5-x") 1000 = (5, 999) := by decide
example : parseRange (some "bytes=x-7") 1000 = (0, 999) := by decide
example : parseRange (some "items=2-7") 1000 = (0, 999) := by decide
example : parseRange (some "bytes=2-7=9") 1000 = (0, 999) := by decide
example : admRun 1 0 [.acquire, .acquire, .release] = 0 := by decide
example : validTrace 1 0 [.acquire, .acquire, .release] = true := by decide
example : validTrace 1 0 [.release] = false := by decide

/-- Splitting never returns an empty list of pieces. -/
theorem splitOnChar_ne_nil (sep : Char) : ∀ l : List Char, splitOnChar sep l ≠ []
  | [] => by simp [splitOnChar]
  | c :: rest => by
    rw [splitOnChar]
    cases h : splitOnChar sep rest with
    | nil => simp
    | cons hh tt => by_cases hc : c = sep <;> simp [hc]

/-- No piece returned by splitting contains the separator. -/
theorem splitOnChar_sep_not_mem (sep : Char) :
    ∀ (l : List Char) (p : List Char), p ∈ splitOnChar sep l → sep ∉ p
  | [], p, hp => by
    simp only [splitOnChar, List.mem_singleton] at hp
    subst hp
    simp
  | c :: rest, p, hp => by
    rw [splitOnChar] at hp
    cases h : splitOnChar sep rest with
    | nil => exact absurd h (splitOnChar_ne_nil sep rest)
    | cons hh tt =>
      rw [h] at hp
      dsimp only at hp
      have hmem : ∀ q ∈ hh :: tt, sep ∉ q := by
        intro q hq
        exact splitOnChar_sep_not_mem sep rest q (h ▸ hq)
      by_cases hc : c = sep
      · rw [if_pos hc] at hp
        rcases List.mem_cons.mp hp with h1 | h1
        · subst h1; simp
        · exact hmem p h1
      · rw [if_neg hc] at hp
        rcases List.mem_cons.mp hp with h1 | h1
        · subst h1
          intro hmem2
          rcases List.mem_cons.mp hmem2 with h2 | h2
          · exact hc h2.symm
          · exact hmem hh (List.mem_cons_self hh tt) h2
        · exact hmem p (List.mem_cons_of_mem hh h1)

/-- Splitting a separator-free list returns the single piece. -/
theorem splitOnChar_no_sep (sep : Char) : ∀ a : List Char, sep ∉ a → splitOnChar sep a = [a]
  | [], _ => rfl
  | c :: rest, h => by
    have h1 : ¬c = sep := fun hc => h (by simp [hc])
    have h2 : sep ∉ rest := fun hm => h (by simp [hm])
    rw [splitOnChar, splitOnChar_no_sep sep rest h2]
    simp [h1]

/-- Splitting at the first separator occurrence peels off the leading
separator-free piece. -/
theorem splitOnChar_sep_append (sep : Char) :
    ∀ a b : List Char, sep ∉ a → splitOnChar sep (a ++ sep :: b) = a :: splitOnChar sep b
  | [], b, _ => by
    rw [List.nil_append, splitOnChar]
    cases h : splitOnChar sep b with
    | nil => exact absurd h (splitOnChar_ne_nil sep b)
    | cons hh tt => simp
  | c :: a, b, h => by
    have h1 : ¬c = sep := fun hc => h (by simp [hc])
    have h2 : sep ∉ a := fun hm => h (by simp [hm])
    rw [List.cons_append, splitOnChar, splitOnChar_sep_append sep a b h2]
    simp [h1]

/-- A successful `pyInt` on a string not containing `-` is nonnegative. -/
theorem pyInt_nonneg {p : List Char} (hp : '-' ∉ p) :
    ∀ v : Int, pyInt p = some v → 0 ≤ v := by
  intro v hv
  match p, hp with
  | [], _ => simp [pyInt] at hv
  | c :: rest, hp =>
    have hc : ¬c = '-' := fun hc => hp (by simp [hc])
    rw [pyInt, if_neg hc] at hv
    by_cases hplus : c = '+'
    · rw [if_pos hplus] at hv
      split at hv
      · cases hv; positivity
      · cases hv
    · rw [if_neg hplus] at hv
      split at hv
      · cases hv; positivity
      · cases hv

/-- A nonempty all-digit string parses to its decimal value. -/
theorem pyInt_digits (ds : List Char) (hne : ds ≠ []) (hdig : ds.all Char.isDigit = true) :
    pyInt ds = some ((digitsVal ds : Int)) := by
  match ds, hne with
  | c :: rest, _ =>
    have hc : c.isDigit := by
      have := List.all_eq_true.mp hdig c (List.mem_cons_self c rest)
      simpa using this
    have h1 : ¬c = '-' := fun hcc => by rw [hcc] at hc; exact absurd hc (by decide)
    have h2 : ¬c = '+' := fun hcc => by rw [hcc] at hc; exact absurd hc (by decide)
    rw [pyInt, if_neg h1, if_neg h2, if_pos hdig]

/-- The `start` produced by the bytes-range extraction is never negative:
`parts[0]` comes from a split on `-`, so it cannot carry a minus sign. -/
theorem parseBytesRange_start_nonneg (parts : List (List Char)) (file_size : Int)
    (h : ∀ p ∈ parts, '-' ∉ p) : 0 ≤ (parseBytesRange parts file_size).1 := by
  rw [parseBytesRange]
  by_cases h0 : parts.headD [] = []
  · rw [if_pos h0]
    cases hd : parts.drop 1 with
    | nil => simp
    | cons p1 t =>
      by_cases h1 : p1 = []
      · simp [hd, h1]
      · cases hp : pyInt p1 with
        | none => simp [hd, h1, hp]
        | some e => simp [hd, h1, hp]
  · rw [if_neg h0]
    have hmem : parts.headD [] ∈ parts := by
      cases parts with
      | nil => simp at h0
      | cons q t => exact List.mem_cons_self q t
    cases hp : pyInt (parts.headD []) with
    | none => simp
    | some s =>
      have hs : 0 ≤ s := pyInt_nonneg (h _ hmem) s hp
      cases hd : parts.drop 1 with
      | nil => simpa using hs
      | cons p1 t =>
        by_cases h1 : p1 = []
        · simpa [hd, h1] using hs
        · cases hq : pyInt p1 with
          | none => simpa [hd, h1, hq] using hs
          | some e => simpa [hd, h1, hq] using hs

/-- The resolved `start` of any request is nonnegative. -/
theorem parseRange_start_nonneg (header : Option String) (file_size : Int) :
    0 ≤ (parseRange header file_size).1 := by
  cases header with
  | none => simp [parseRange]
  | some h =>
    rw [parseRange]
    by_cases he : h.data = []
    · simp [he]
    · rw [if_neg he]
      cases hs : splitOnChar '=' h.data with
      | nil => simp
      | cons u t =>
        cases t with
        | nil => simp
        | cons r t2 =>
          cases t2 with
          | nil =>
            dsimp only
            by_cases hu : u = bytesUnit
            · rw [if_pos hu]
              exact parseBytesRange_start_nonneg _ _
                (fun p hp => splitOnChar_sep_not_mem '-' r p hp)
            · simp [hu]
          | cons x t3 => simp

/-- Key lemma: for a nonnegative remaining budget, the concatenation of the
chunks the loop yields is exactly the first `total - served` bytes of the
concatenated upstream data. -/
theorem fgLoop_flatten : ∀ (chunks : List (List Nat)) (total served : Int),
    0 ≤ served → served ≤ total →
    (fgLoop total served chunks).flatten = chunks.flatten.take (total - served).toNat
  | [], total, served, _, _ => by simp [fgLoop]
  | c :: rest, total, served, h0, h1 => by
    rw [fgLoop]
    by_cases hlt : total < served + (c.length : Int)
    · rw [if_pos hlt]
      have hn : (total - served).toNat ≤ c.length := by omega
      rw [pyTake, if_pos (by omega : (0:Int) ≤ total - served)]
      simp only [List.flatten_cons, List.flatten_nil, List.append_nil]
      rw [List.take_append_eq_append_take, Nat.sub_eq_zero_of_le hn, List.take_zero,
        List.append_nil]
    · rw [if_neg hlt]
      by_cases hle : total ≤ served + (c.length : Int)
      · rw [if_pos hle]
        have hn : (total - served).toNat = c.length := by omega
        simp only [List.flatten_cons, List.flatten_nil, List.append_nil, hn]
        rw [List.take_append_eq_append_take, Nat.sub_self, List.take_zero, List.append_nil,
          List.take_length]
      · rw [if_neg hle]
        have ih := fgLoop_flatten rest total (served + c.length) (by omega) (by omega)
        simp only [List.flatten_cons, ih]
        rw [List.take_append_eq_append_take,
          List.take_of_length_le (by omega : c.length ≤ (total - served).toNat)]
        congr 2
        omega

/-- A halted coroutine yields nothing. -/
theorem fgRun_halted (total : Int) : ∀ k : Nat, fgRun total k .halted = []
  | 0 => rfl
  | _ + 1 => rfl

/-- Draining the coroutine on an error-free upstream agrees with the big-step
loop `fgLoop`. -/
theorem fgRun_drain : ∀ (chunks : List (List Nat)) (total served : Int) (k : Nat),
    chunks.length ≤ k →
    fgRun total k (.running served (chunks.map some)) = fgLoop total served chunks
  | [], total, served, k, _ => by
    cases k with
    | zero => rfl
    | succ k => rfl
  | c :: rest, total, served, k, hk => by
    cases k with
    | zero => simp at hk
    | succ k =>
      rw [fgRun]
      simp only [List.map_cons, fgStep, fgLoop]
      by_cases hlt : total < served + (c.length : Int)
      · rw [if_pos hlt, if_pos hlt]
        simp [fgRun_halted]
      · rw [if_neg hlt, if_neg hlt]
        by_cases hle : total ≤ served + (c.length : Int)
        · rw [if_pos hle, if_pos hle]
          simp [fgRun_halted]
        · rw [if_neg hle, if_neg hle]
          simpa using fgRun_drain rest total (served + c.length) k (by simpa using hk)

/-- Chunks delivered after the point where the upstream raises do not depend
on any upstream item past the raise: the loop is abandoned at the first
error, so no later fetch is issued. -/
theorem fgRun_error_stop (total : Int) :
    ∀ (k : Nat) (pre : List (Option (List Nat))) (served : Int)
      (post post' : List (Option (List Nat))), none ∉ pre →
      fgRun total k (.running served (pre ++ none :: post)) =
        fgRun total k (.running served (pre ++ none :: post')) := by
  intro k
  induction k with
  | zero => intro pre served post post' _; rfl
  | succ k ih =>
    intro pre served post post' hpre
    cases pre with
    | nil => rfl
    | cons x pre =>
      cases x with
      | none => exact absurd (List.mem_cons_self _ _) hpre
      | some c =>
        rw [fgRun, fgRun]
        simp only [List.cons_append, fgStep]
        by_cases hlt : total < served + (c.length : Int)
        · rw [if_pos hlt, if_pos hlt]
        · rw [if_neg hlt, if_neg hlt]
          by_cases hle : total ≤ served + (c.length : Int)
          · rw [if_pos hle, if_pos hle]
          · rw [if_neg hle, if_neg hle]
            exact congrArg (List.cons c)
              (ih pre (served + c.length) post post'
                (fun hm => hpre (List.mem_cons_of_mem _ hm)))

/-- The client pulls at most `k` chunks, so at most `k` are delivered. -/
theorem fgRun_length_le (total : Int) :
    ∀ (k : Nat) (s : FGState), (fgRun total k s).length ≤ k := by
  intro k
  induction k with
  | zero => intro s; simp [fgRun]
  | succ k ih =>
    intro s
    rw [fgRun]
    cases h : fgStep total s with
    | none => simp
    | some cs =>
      simp only [List.length_cons]
      exact Nat.succ_le_succ (ih cs.2)

/-- Bounded-counter invariant: from any in-range counter value, a trace in
which every release is covered by an open granted acquire keeps the counter
within `[0, MAX_CONCURRENT_STREAMS]`. -/
theorem admRun_bounded : ∀ (ops : List AdmOp) (maxStreams : Nat) (active : Int),
    0 ≤ active → active ≤ maxStreams → validTrace maxStreams active ops = true →
    0 ≤ admRun maxStreams active ops ∧ admRun maxStreams active ops ≤ maxStreams
  | [], _, _, h0, h1, _ => ⟨h0, h1⟩
  | AdmOp.acquire :: ops, maxS, a, h0, h1, hv => by
    rw [admRun]
    rw [validTrace] at hv
    refine admRun_bounded ops maxS (admStep maxS a .acquire) ?_ ?_ hv
    · rw [admStep]
      split <;> omega
    · rw [admStep]
      split <;> omega
  | AdmOp.release :: ops, maxS, a, h0, h1, hv => by
    rw [admRun]
    rw [validTrace, Bool.and_eq_true, decide_eq_true_iff] at hv
    have h := admRun_bounded ops maxS (a - 1) (by omega) (by omega) hv.2
    simpa [admStep] using h

/-- The counter always equals its initial value plus granted acquires minus
releases. -/
theorem admRun_eq_counts : ∀ (ops : List AdmOp) (maxStreams : Nat) (active : Int),
    admRun maxStreams active ops
      = active + grantCount maxStreams active ops - releaseCount ops
  | [], maxS, a => by simp [admRun, grantCount, releaseCount]
  | AdmOp.acquire :: ops, maxS, a => by
    rw [admRun, grantCount, releaseCount,
      admRun_eq_counts ops maxS (admStep maxS a .acquire)]
    rw [admStep]
    split <;> push_cast <;> ring
  | AdmOp.release :: ops, maxS, a => by
    have hstep : admStep maxS a AdmOp.release = a - 1 := rfl
    rw [admRun, hstep, releaseCount, grantCount, admRun_eq_counts ops maxS (a - 1)]
    push_cast
    ring

/-- Verifying the token of a freshly issued link succeeds exactly while the
link is within its validity window. -/
theorem verify_generate (mac : String → String → String) (secret file_id : String)
    (file_size : Int) (tokenExpiry issueTime now : Nat) :
    verify_token mac secret now file_id
        (generate_secure_link mac secret tokenExpiry issueTime file_id file_size).token
        (generate_secure_link mac secret tokenExpiry issueTime file_id file_size).exp
      = decide (now ≤ issueTime + tokenExpiry) := by
  rw [verify_token, generate_secure_link]
  dsimp only
  by_cases h : issueTime + tokenExpiry < now
  · rw [if_pos h]
    exact (decide_eq_false (by omega)).symm
  · rw [if_neg h, beq_self_eq_true]
    exact (decide_eq_true (by omega)).symm

/-- C1: for every valid window `[start, end]` inside the resource, when the
upstream delivers the resource bytes from offset `start` (the byte-offset
contract the code assumes of `stream_media`), the concatenation of the chunks
`file_generator` yields equals the byte slice `[start..end]` of the full
content and has length exactly `end - start + 1`; moreover, for an arbitrary
upstream chunk sequence the cumulative yielded bytes never exceed
`end - start + 1`. -/
theorem C1_reassembly_exact (content : List Nat) (start endB : Nat)
    (fetch fetchAny : Int → List (List Nat))
    (hse : start ≤ endB) (hend : endB < content.length)
    (hup : (fetch start).flatten = List.drop start content) :
    (file_generator fetch start endB).flatten
        = (List.drop start content).take (endB - start + 1)
    ∧ (file_generator fetch start endB).flatten.length = endB - start + 1
    ∧ (file_generator fetchAny start endB).flatten.length ≤ endB - start + 1 := by
  have key : ∀ g : Int → List (List Nat),
      (file_generator g start endB).flatten
        = (g start).flatten.take (endB - start + 1) := by
    intro g
    rw [file_generator, fgLoop_flatten (g start) _ 0 le_rfl (by omega)]
    congr 1
    omega
  refine ⟨?_, ?_, ?_⟩
  · rw [key fetch, hup]
  · rw [key fetch, hup, List.length_take, List.length_drop]
    omega
  · rw [key fetchAny, List.length_take]
    omega

/-- C1 witness: content `[0,1,2,3,4]`, window `[1,3]`, a two-chunk upstream
carrying the suffix from byte 1, and an arbitrary other upstream. -/
theorem C1_reassembly_exact_witness :
    (1 ≤ 3 ∧ 3 < ([0, 1, 2, 3, 4] : List Nat).length
      ∧ (((fun _ => [[1, 2], [3, 4]]) : Int → List (List Nat)) 1).flatten
          = List.drop 1 [0, 1, 2, 3, 4])
    ∧ ((file_generator (fun _ => [[1, 2], [3, 4]]) 1 3).flatten
          = (List.drop 1 [0, 1, 2, 3, 4]).take 3
        ∧ (file_generator (fun _ => [[1, 2], [3, 4]]) 1 3).flatten.length = 3
        ∧ (file_generator (fun _ => [[5, 5], [5, 5], [5, 5]]) 1 3).flatten.length ≤ 3) :=
  ⟨by decide,
    C1_reassembly_exact [0, 1, 2, 3, 4] 1 3 (fun _ => [[1, 2], [3, 4]])
      (fun _ => [[5, 5], [5, 5], [5, 5]]) (by decide) (by decide) (by decide)⟩

/-- C2 counterexample: with `MAX_CONCURRENT_STREAMS = 1` and one stream
already active, the second request's response has status 206 — not 503 —
with the full success header set already fixed, and an empty body.  The
admission decision is taken inside the body generator, after the status and
headers, so the claimed 503 never surfaces. -/
theorem C2_counterexample :
    (stream_logic 1 1 (fun _ => []) none 1000 "inline").status = 206
    ∧ (stream_logic 1 1 (fun _ => []) none 1000 "inline").status ≠ 503
    ∧ (stream_logic 1 1 (fun _ => []) none 1000 "inline").body = []
    ∧ (stream_logic 1 1 (fun _ => []) none 1000 "inline").headers =
        [("Content-Range", "bytes 0-999/1000"), ("Accept-Ranges", "bytes"),
         ("Content-Length", "1000"), ("Content-Type", "video/mp4"),
         ("Content-Disposition", "inline"), ("Connection", "keep-alive")] := by decide

/-- C2 amended: when the stream counter has reached
`MAX_CONCURRENT_STREAMS`, a satisfiable request is still answered with
status 206 and the six success headers; only the body is empty — the 503
raised by `StreamManager.__aenter__` inside the body generator is swallowed
and can no longer change the already-fixed status. -/
theorem C2_busy_responds_206 (maxStreams active : Nat) (fetch : Int → List (List Nat))
    (rangeHeader : Option String) (size : Int) (disposition : String)
    (hbusy : maxStreams ≤ active) (hsat : (parseRange rangeHeader size).1 < size) :
    (stream_logic maxStreams active fetch rangeHeader size disposition).status = 206
    ∧ (stream_logic maxStreams active fetch rangeHeader size disposition).status ≠ 503
    ∧ (stream_logic maxStreams active fetch rangeHeader size disposition).body = []
    ∧ (stream_logic maxStreams active fetch rangeHeader size disposition).headers.length = 6 := by
  simp only [stream_logic]
  rw [if_neg (not_le.mpr hsat)]
  refine ⟨rfl, (by decide : (206 : Nat) ≠ 503), ?_, rfl⟩
  dsimp only
  rw [if_pos hbusy]

/-- C2 witness: one admitted stream, limit one, default range, size 1000. -/
theorem C2_busy_responds_206_witness :
    (1 ≤ 1 ∧ (parseRange none 1000).1 < 1000)
    ∧ ((stream_logic 1 1 (fun _ => [[1]]) none 1000 "inline").status = 206
      ∧ (stream_logic 1 1 (fun _ => [[1]]) none 1000 "inline").status ≠ 503
      ∧ (stream_logic 1 1 (fun _ => [[1]]) none 1000 "inline").body = []
      ∧ (stream_logic 1 1 (fun _ => [[1]]) none 1000 "inline").headers.length = 6) :=
  ⟨⟨le_rfl, by decide⟩,
    C2_busy_responds_206 1 1 (fun _ => [[1]]) none 1000 "inline" le_rfl (by decide)⟩

/-- C3 counterexample: for window `[4097, 2000000]` the engine's output is
exactly the (untrimmed) data the upstream returns for offset 4097: changing
the upstream data at the claimed aligned offsets 0 and 4096 (`cexFetchB`)
leaves the output unchanged, while changing it at 4097 (`cexFetchC`) changes
the output — so the first fetch is issued at offset 4097, not at an aligned
offset, and no leading bytes are dropped (dropping 4097 leading bytes of a
3-byte upstream would have to yield nothing). -/
theorem C3_counterexample :
    file_generator cexFetchA 4097 2000000 = [[9, 9, 9]]
    ∧ file_generator cexFetchB 4097 2000000 = [[9, 9, 9]]
    ∧ file_generator cexFetchC 4097 2000000 = [[5]]
    ∧ cexFetchA 0 ≠ cexFetchB 0
    ∧ cexFetchA 4096 ≠ cexFetchB 4096
    ∧ cexFetchA 4097 = cexFetchB 4097
    ∧ file_generator cexFetchA 4097 2000000 ≠ [] := by decide

/-- C3 amended: the engine consults the upstream only at offset exactly
`start` (no alignment adjustment, no leading skip), and for window
`[4097, 2000000]` with enough upstream data it yields exactly the first
1995904 bytes of the data fetched at offset 4097 — total yielded length
1995904, nothing dropped from the front. -/
theorem C3_fetch_at_start (fetch fetchA : Int → List (List Nat)) (start endB : Int)
    (hagree : fetch start = fetchA start)
    (hlen : 1995904 ≤ (fetch 4097).flatten.length) :
    file_generator fetch start endB = file_generator fetchA start endB
    ∧ (file_generator fetch 4097 2000000).flatten = (fetch 4097).flatten.take 1995904
    ∧ (file_generator fetch 4097 2000000).flatten.length = 1995904 := by
  refine ⟨?_, ?_, ?_⟩
  · rw [file_generator, file_generator, hagree]
  · rw [file_generator, fgLoop_flatten (fetch 4097) _ 0 le_rfl (by omega)]
    congr 1
  · rw [file_generator, fgLoop_flatten (fetch 4097) _ 0 le_rfl (by omega), List.length_take]
    omega

/-- The witness upstream indeed holds 1995904 bytes. -/
theorem wFetch_len : 1995904 ≤ (wFetch 4097).flatten.length := by
  show 1995904 ≤ ([List.replicate 1995904 0] : List (List Nat)).flatten.length
  rw [List.flatten_cons, List.flatten_nil, List.append_nil, List.length_replicate]

/-- C3 witness: a single-chunk upstream holding 1995904 bytes. -/
theorem C3_fetch_at_start_witness :
    (wFetch 4097 = wFetch 4097 ∧ 1995904 ≤ (wFetch 4097).flatten.length)
    ∧ (file_generator wFetch 4097 2000000 = file_generator wFetch 4097 2000000
      ∧ (file_generator wFetch 4097 2000000).flatten = (wFetch 4097).flatten.take 1995904
      ∧ (file_generator wFetch 4097 2000000).flatten.length = 1995904) :=
  ⟨⟨rfl, wFetch_len⟩, C3_fetch_at_start wFetch wFetch 4097 2000000 rfl wFetch_len⟩

/-- C4: token round trip.  Verifying the unaltered fields of a link produced
by `generate_secure_link` under the same secret succeeds exactly when
`now ≤ expiry` and fails exactly when `now > expiry`. -/
theorem C4_token_roundtrip (mac : String → String → String) (secret file_id : String)
    (file_size : Int) (tokenExpiry issueTime now : Nat) :
    verify_token mac secret now
        (generate_secure_link mac secret tokenExpiry issueTime file_id file_size).file_id
        (generate_secure_link mac secret tokenExpiry issueTime file_id file_size).token
        (generate_secure_link mac secret tokenExpiry issueTime file_id file_size).exp
      = decide
          (now ≤ (generate_secure_link mac secret tokenExpiry issueTime file_id file_size).exp) :=
  verify_generate mac secret file_id file_size tokenExpiry issueTime now

/-- C5: the `size` query parameter does not influence token verification or
the route's accept/reject decision: the rejection outcome is identical for
any two client-presented sizes, and a token issued for size `s1` is accepted
with any presented size `s2` exactly while it is unexpired. -/
theorem C5_size_noninterference (mac : String → String → String) (secret : String)
    (now maxStreams active : Nat) (fetch : Int → List (List Nat))
    (rangeHeader : Option String) (file_id token : String) (exp : Nat)
    (s1 s2 : Int) (tokenExpiry issueTime : Nat) :
    (stream_route mac secret now maxStreams active fetch rangeHeader
        file_id s1 token exp).isForbidden
      = (stream_route mac secret now maxStreams active fetch rangeHeader
          file_id s2 token exp).isForbidden
    ∧ (stream_route mac secret now maxStreams active fetch rangeHeader file_id s2
          (generate_secure_link mac secret tokenExpiry issueTime file_id s1).token
          (generate_secure_link mac secret tokenExpiry issueTime file_id s1).exp).isForbidden
      = decide (¬now ≤ issueTime + tokenExpiry) := by
  constructor
  · cases hv : verify_token mac secret now file_id token exp <;>
      simp [stream_route, hv, RouteResult.isForbidden]
  · rw [stream_route, verify_generate mac secret file_id s1 tokenExpiry issueTime now]
    by_cases hn : now ≤ issueTime + tokenExpiry
    · simp [hn, RouteResult.isForbidden]
    · simp [hn, RouteResult.isForbidden]

/-- C6: starting from an idle counter, every trace of `StreamManager`
enter/exit operations in which each exit is covered by an open granted enter
keeps `0 ≤ active ≤ MAX_CONCURRENT_STREAMS`; an enter increments exactly
when `active < MAX_CONCURRENT_STREAMS` and leaves the counter unchanged
(raising 503) exactly when `active` has reached the limit; and the counter
always equals granted acquires minus releases, so a trace ends balanced
exactly when every grant was released. -/
theorem C6_admission_counter (maxStreams : Nat) (ops : List AdmOp) (active : Int)
    (hv : validTrace maxStreams 0 ops = true) (_h0 : 0 ≤ active) (h1 : active ≤ maxStreams) :
    (0 ≤ admRun maxStreams 0 ops ∧ admRun maxStreams 0 ops ≤ maxStreams)
    ∧ (admStep maxStreams active .acquire = active + 1 ↔ active < maxStreams)
    ∧ (admStep maxStreams active .acquire = active ↔ (maxStreams : Int) ≤ active)
    ∧ admRun maxStreams 0 ops
        = grantCount maxStreams 0 ops - releaseCount ops := by
  refine ⟨admRun_bounded ops maxStreams 0 le_rfl (by omega) hv, ?_, ?_, ?_⟩
  · rw [admStep]
    split <;> omega
  · rw [admStep]
    split <;> omega
  · have h := admRun_eq_counts ops maxStreams 0
    omega

/-- C6 witness: limit 1; the trace acquire, rejected acquire, release. -/
theorem C6_admission_counter_witness :
    (validTrace 1 0 [.acquire, .acquire, .release] = true
      ∧ (0 : Int) ≤ 1 ∧ (1 : Int) ≤ (1 : Nat))
    ∧ ((0 ≤ admRun 1 0 [.acquire, .acquire, .release]
        ∧ admRun 1 0 [.acquire, .acquire, .release] ≤ 1)
      ∧ (admStep 1 1 .acquire = 1 + 1 ↔ (1 : Int) < (1 : Nat))
      ∧ (admStep 1 1 .acquire = 1 ↔ ((1 : Nat) : Int) ≤ 1)
      ∧ admRun 1 0 [.acquire, .acquire, .release]
          = grantCount 1 0 [.acquire, .acquire, .release]
            - releaseCount [.acquire, .acquire, .release]) :=
  ⟨⟨by decide, by decide, by decide⟩,
    C6_admission_counter 1 [.acquire, .acquire, .release] 1 (by decide) (by decide) (by decide)⟩

/-- C7 counterexample: the syntactically valid header `bytes=500-100` with
size 1000 parses to `start = 500 < 1000`, so it is not answered 416, yet the
clamped window has `end = 100 < start` — the resolved window is not a valid
sub-range. -/
theorem C7_counterexample :
    (parseRange (some "bytes=500-100") 1000).1 = 500
    ∧ (parseRange (some "bytes=500-100") 1000).2 = 100
    ∧ (parseRange (some "bytes=500-100") 1000).1 < 1000
    ∧ min ((parseRange (some "bytes=500-100") 1000).2) (1000 - 1)
        < (parseRange (some "bytes=500-100") 1000).1 := by decide

/-- C7 amended: the resolved `start` is never negative, and whenever
`start < size` and the client-supplied end is at least `start`, the clamped
window is a valid sub-range `start ≤ min(end, size-1) ≤ size-1`; for
inverted ranges (`end < start`, e.g. `bytes=500-100`) the clamp does not
restore validity. -/
theorem C7_window_valid (header : Option String) (size : Int)
    (hs : (parseRange header size).1 < size)
    (hie : (parseRange header size).1 ≤ (parseRange header size).2) :
    0 ≤ (parseRange header size).1
    ∧ (parseRange header size).1 ≤ min ((parseRange header size).2) (size - 1)
    ∧ min ((parseRange header size).2) (size - 1) ≤ size - 1 :=
  ⟨parseRange_start_nonneg header size, le_min hie (by omega), min_le_right _ _⟩

/-- C7 witness: header `bytes=2-7` against size 10. -/
theorem C7_window_valid_witness :
    ((parseRange (some "bytes=2-7") 10).1 < 10
      ∧ (parseRange (some "bytes=2-7") 10).1 ≤ (parseRange (some "bytes=2-7") 10).2)
    ∧ (0 ≤ (parseRange (some "bytes=2-7") 10).1
      ∧ (parseRange (some "bytes=2-7") 10).1
          ≤ min ((parseRange (some "bytes=2-7") 10).2) (10 - 1)
      ∧ min ((parseRange (some "bytes=2-7") 10).2) (10 - 1) ≤ 10 - 1) :=
  ⟨⟨by decide, by decide⟩, C7_window_valid (some "bytes=2-7") 10 (by decide) (by decide)⟩

/-- C8 counterexample: the suffix form `bytes=-5` against size 1000 is
silently misparsed into the window `[0, 5]` — neither the last-5-bytes
window `[995, 999]` nor the whole-resource window `[0, 999]`. -/
theorem C8_counterexample :
    parseRange (some "bytes=-5") 1000 = (0, 5)
    ∧ min ((parseRange (some "bytes=-5") 1000).2) (1000 - 1) = 5
    ∧ parseRange (some "bytes=-5") 1000 ≠ (0, 999)
    ∧ parseRange (some "bytes=-5") 1000 ≠ (995, 999) := by decide

/-- C8 amended: for every nonempty digit string `N`, the header `bytes=-N`
is parsed with the empty piece before the dash defaulting `start` to 0 and
`N` taken as `end`: the resolved pre-clamp window is `(0, N)` — the last-N
semantics is neither implemented nor rejected, but silently misparsed. -/
theorem C8_suffix_misparsed (ds : List Char) (size : Int)
    (hne : ds ≠ []) (hdig : ds.all Char.isDigit = true) :
    parseRange (some (String.mk (bytesUnit ++ '=' :: '-' :: ds))) size
      = (0, (digitsVal ds : Int)) := by
  have hdigmem : ∀ c ∈ ds, c.isDigit := fun c hc => by
    simpa using List.all_eq_true.mp hdig c hc
  have heq : ('=' : Char) ∉ '-' :: ds := by
    intro hmem
    rcases List.mem_cons.mp hmem with h | h
    · exact absurd h (by decide)
    · exact absurd (hdigmem _ h) (by decide)
  have hdash : ('-' : Char) ∉ ds := fun hmem => absurd (hdigmem _ hmem) (by decide)
  have hsplit : splitOnChar '=' (bytesUnit ++ '=' :: '-' :: ds) = [bytesUnit, '-' :: ds] := by
    rw [splitOnChar_sep_append '=' bytesUnit ('-' :: ds) (by decide),
      splitOnChar_no_sep '=' ('-' :: ds) heq]
  have hsplit2 : splitOnChar '-' ('-' :: ds) = [[], ds] := by
    rw [splitOnChar, splitOnChar_no_sep '-' ds hdash]
    simp
  rw [parseRange]
  rw [if_neg (by simp [bytesUnit] : ¬(String.mk (bytesUnit ++ '=' :: '-' :: ds)).data = [])]
  rw [show (String.mk (bytesUnit ++ '=' :: '-' :: ds)).data = bytesUnit ++ '=' :: '-' :: ds
    from rfl]
  rw [hsplit]
  dsimp only
  rw [if_pos rfl, hsplit2, parseBytesRange]
  dsimp only [List.headD, List.drop]
  rw [if_pos rfl]
  dsimp only
  rw [if_neg hne, pyInt_digits ds hne hdig]

/-- C8 witness: the header `bytes=-5` against size 1000. -/
theorem C8_suffix_misparsed_witness :
    ((['5'] : List Char) ≠ [] ∧ (['5'] : List Char).all Char.isDigit = true)
    ∧ parseRange (some (String.mk (bytesUnit ++ '=' :: '-' :: ['5']))) 1000
        = (0, (digitsVal ['5'] : Int)) :=
  ⟨⟨by decide, by decide⟩, C8_suffix_misparsed ['5'] 1000 (by decide) (by decide)⟩

/-- C9: when the upstream raises mid-stream, the generator ends at once —
the chunks delivered do not depend on any upstream item past the raise (no
further fetch is issued), the pull that hits the raise returns the
end-of-generator signal rather than an error (the exception is swallowed at
src/server.py line 110 and by the bare except at line 212); a client pulling
at most `k` chunks before disconnecting receives at most `k`; and the body
generator's net effect on `active_streams_count` is zero on every path —
the admission slot is always released. -/
theorem C9_abort_stops_and_releases (total served : Int) (k : Nat)
    (pre post post' : List (Option (List Nat))) (hpre : none ∉ pre)
    (maxStreams active : Nat) (chunks : List (List Nat)) :
    fgRun total k (.running served (pre ++ none :: post))
      = fgRun total k (.running served (pre ++ none :: post'))
    ∧ fgStep total (.running served (none :: post)) = none
    ∧ (fgRun total k (.running served (pre ++ none :: post))).length ≤ k
    ∧ (genExec maxStreams active chunks).2 = active := by
  refine ⟨fgRun_error_stop total k pre served post post' hpre, rfl,
    fgRun_length_le total k _, ?_⟩
  rw [genExec]
  split
  · rfl
  · simp

/-- C9 witness: one good chunk, then a raise, then an unread chunk. -/
theorem C9_abort_stops_and_releases_witness :
    ((none : Option (List Nat)) ∉ [some [1]]
      ∧ (fgRun 10 5 (.running 0 ([some [1]] ++ none :: [some [2]]))
          = fgRun 10 5 (.running 0 ([some [1]] ++ none :: []))
        ∧ fgStep 10 (.running 0 (none :: [some [2]])) = none
        ∧ (fgRun 10 5 (.running 0 ([some [1]] ++ none :: [some [2]]))).length ≤ 5
        ∧ (genExec 2 1 [[3]]).2 = 1)) :=
  ⟨by decide, C9_abort_stops_and_releases 10 0 5 [some [1]] [some [2]] [] (by decide) 2 1 [[3]]⟩

/-- Status and headers of `stream_logic` are fixed before the body generator
runs: they do not depend on the upstream nor on the admission state. -/
theorem stream_logic_status_headers (m a m' a' : Nat) (f g : Int → List (List Nat))
    (rh : Option String) (sz : Int) (d : String) :
    (stream_logic m a f rh sz d).status = (stream_logic m' a' g rh sz d).status
    ∧ (stream_logic m a f rh sz d).headers = (stream_logic m' a' g rh sz d).headers := by
  simp only [stream_logic]
  by_cases h : sz ≤ (parseRange rh sz).1
  · rw [if_pos h, if_pos h]
    exact ⟨rfl, rfl⟩
  · rw [if_neg h, if_neg h]
    exact ⟨rfl, rfl⟩

/-- The satisfiable, admitted body of `stream_logic` is the `file_generator`
sequence over the clamped window. -/
theorem stream_logic_body (m a : Nat) (f : Int → List (List Nat))
    (rh : Option String) (sz : Int) (d : String)
    (h : ¬sz ≤ (parseRange rh sz).1) (hadm : ¬m ≤ a) :
    (stream_logic m a f rh sz d).body
      = file_generator f (parseRange rh sz).1 (min (parseRange rh sz).2 (sz - 1)) := by
  simp only [stream_logic]
  rw [if_neg h]
  dsimp only
  rw [if_neg hadm]

set_option maxRecDepth 8192 in
/-- C10: the inverted range `bytes=500-100` against size 1000 is not
rejected (`start = 500 < 1000`), the response still has status 206 and a
`Content-Length` header holding the negative value `-399`, and
`file_generator` on the window `[500, 100]` yields one chunk: the Python
negative slice `chunk[:-399]` of the first upstream chunk, which is nonempty
whenever that chunk is longer than 399 bytes. -/
theorem C10_inverted_range (maxStreams active : Nat) (c : List Nat) (rest : List (List Nat))
    (hadm : ¬maxStreams ≤ active) (hc : 399 < c.length) :
    (stream_logic maxStreams active (fun _ => c :: rest)
        (some "bytes=500-100") 1000 "inline").status = 206
    ∧ ("Content-Length", "-399")
        ∈ (stream_logic maxStreams active (fun _ => c :: rest)
            (some "bytes=500-100") 1000 "inline").headers
    ∧ (stream_logic maxStreams active (fun _ => c :: rest)
        (some "bytes=500-100") 1000 "inline").body = [c.take (c.length - 399)]
    ∧ file_generator (fun _ => c :: rest) 500 100 = [c.take (c.length - 399)]
    ∧ c.take (c.length - 399) ≠ [] := by
  have hp : parseRange (some "bytes=500-100") 1000 = (500, 100) := by decide
  have hfg : file_generator (fun _ => c :: rest) 500 100 = [c.take (c.length - 399)] := by
    rw [file_generator, fgLoop]
    rw [if_pos (by omega : (100 : Int) - 500 + 1 < 0 + (c.length : Int))]
    rw [pyTake, if_neg (by omega : ¬(0 : Int) ≤ 100 - 500 + 1 - 0)]
    congr 2
    omega
  obtain ⟨hst, hhd⟩ := stream_logic_status_headers maxStreams active 1 0
    (fun _ => c :: rest) (fun _ => []) (some "bytes=500-100") 1000 "inline"
  refine ⟨?_, ?_, ?_, hfg, ?_⟩
  · rw [hst]
    decide
  · rw [hhd]
    decide
  · rw [stream_logic_body maxStreams active (fun _ => c :: rest)
      (some "bytes=500-100") 1000 "inline" (by decide) hadm, hp]
    dsimp only
    rw [show min (100 : Int) (1000 - 1) = 100 from by norm_num]
    exact hfg
  · intro hnil
    have hl := congrArg List.length hnil
    rw [List.length_take, List.length_nil, Nat.min_eq_left (by omega)] at hl
    omega

set_option maxRecDepth 8192 in
/-- C10 witness: a 400-byte first chunk; `chunk[:-399]` keeps one byte. -/
theorem C10_inverted_range_witness :
    (¬(1 : Nat) ≤ 0 ∧ 399 < (List.replicate 400 7).length)
    ∧ ((stream_logic 1 0 (fun _ => List.replicate 400 7 :: [])
          (some "bytes=500-100") 1000 "inline").status = 206
      ∧ ("Content-Length", "-399")
          ∈ (stream_logic 1 0 (fun _ => List.replicate 400 7 :: [])
              (some "bytes=500-100") 1000 "inline").headers
      ∧ (stream_logic 1 0 (fun _ => List.replicate 400 7 :: [])
          (some "bytes=500-100") 1000 "inline").body
            = [(List.replicate 400 7).take ((List.replicate 400 7).length - 399)]
      ∧ file_generator (fun _ => List.replicate 400 7 :: []) 500 100
            = [(List.replicate 400 7).take ((List.replicate 400 7).length - 399)]
      ∧ (List.replicate 400 7).take ((List.replicate 400 7).length - 399) ≠ []) :=
  ⟨⟨by decide, by decide⟩,
    C10_inverted_range 1 0 (List.replicate 400 7) [] (by decide) (by decide)⟩
